import Mathlib

/-
Shallow embedding of src/game.py (Card Battle RPG, version 0.3).

Modelling conventions:
* Python integers are modelled as Int (Python integers are unbounded).
* Python float arithmetic (damage formula, multipliers, thresholds) is
  modelled exactly over the rationals.
* Python `int(x)` truncates toward zero; this is `pyInt` below.
* Sources of randomness (deck shuffles, `random.uniform` factors, the
  automated side's random picks) and interactive inputs are passed in as
  explicit oracle parameters.
* Printing and sleeping are ignored; every function returns the new state.
-/

namespace CardBattle

attribute [local semireducible] Rat.add Rat.mul Rat.sub Rat.inv Rat.ofScientific

/-- Python `int(x)`: truncation toward zero of an exact rational value. -/
def pyInt (q : ℚ) : ℤ := if 0 ≤ q then ⌊q⌋ else ⌈q⌉

/-- game.py lines 36-43: the three card symbols, in source iteration order
STAR, CIRCLE, TRIANGLE. -/
inductive Symbol where
  | star
  | circle
  | triangle
deriving DecidableEq

/-- game.py lines 45-48: a card is a number together with a symbol. -/
structure Card where
  number : ℤ
  symbol : Symbol
deriving DecidableEq

/-- game.py lines 50-52: attack multiplier table of a card's symbol. -/
def Card.atk_mul (c : Card) : ℚ :=
  match c.symbol with
  | .star => 14/10
  | .circle => 1
  | .triangle => 6/10

/-- game.py lines 54-56: defense multiplier table of a card's symbol. -/
def Card.def_mul (c : Card) : ℚ :=
  match c.symbol with
  | .star => 6/10
  | .circle => 1
  | .triangle => 14/10

def symbolOrder : List Symbol := [.star, .circle, .triangle]

/-- game.py lines 68-71, inner two loops: Card(n, sym) for n in 1..7, sym in
symbol order. -/
def oneCopy : List Card :=
  ((List.range 7).map fun n => symbolOrder.map fun s => Card.mk ((n : ℤ) + 1) s).flatten

/-- game.py lines 66-72 before the shuffle: the 63-card multiset built by
`Deck._build` (3 identical copies), in append order. The subsequent
`random.shuffle` is modelled by oracle arguments that theorems constrain to be
permutations of this list. -/
def buildCanonical : List Card := oneCopy ++ oneCopy ++ oneCopy

/-- game.py lines 61-64: the deck holds an ordered list of cards. -/
structure Deck where
  cards : List Card
deriving DecidableEq

/-- game.py lines 74-78, body of `Deck.draw`: if fewer than n cards remain,
the rebuilt (freshly shuffled) deck `reshuffled` replaces the old cards before
drawing; then the first n cards are removed and returned. -/
def drawStep (cards : List Card) (n : ℕ) (reshuffled : List Card) : List Card × List Card :=
  if cards.length < n then (reshuffled.take n, reshuffled.drop n)
  else (cards.take n, cards.drop n)

/-- game.py lines 74-78: `Deck.draw`. `reshuffled` is the oracle for the
result of `self._build()` (a shuffled fresh 63-card list). -/
def Deck.draw (d : Deck) (n : ℕ) (reshuffled : List Card) : List Card × Deck :=
  let r := drawStep d.cards n reshuffled
  (r.1, ⟨r.2⟩)

/-- game.py lines 86-91: an ability; its callable effect is represented as a
closed tag interpreted by `applyEffect`. -/
inductive EffKind where
  | kiWaveE
  | healE
  | kaiokenE
deriving DecidableEq

structure Ability where
  name : String
  ki_cost : ℤ
  desc : String
  eff : EffKind
deriving DecidableEq

/-- game.py lines 694-701: one entry of `form_stack`. -/
structure Snapshot where
  name : String
  power_level : ℤ
  max_hp : ℤ
  max_ki : ℤ
  hp : ℤ
  ki : ℤ
deriving DecidableEq

/-- One entry of the configuration's transformation table (heroes_types.json,
read by game.py lines 669-717): name, prerequisite form (the source accepts
both the `required` and the misspelled `requitred` key; a single optional
field here), minimum level, the three multipliers, and the optional
auto-revert threshold. -/
structure Transformation where
  name : String
  required : Option String
  level_enabled : ℤ
  mulPL : ℚ
  mulHP : ℚ
  mulKI : ℚ
  threshold : Option ℚ
deriving DecidableEq

/-- game.py lines 152-179: the Character dataclass.  `is_player` is set by
`Player.__init__` (line 272); `terminated_at` is an attribute created
dynamically by `apply_transformation` and read through
`getattr(char, "terminated_at", None)` (line 740), modelled as an Option
field that starts as none. -/
structure Character where
  name : String
  level : ℤ
  power_level : ℤ
  max_hp : ℤ
  max_ki : ℤ
  abilities : List Ability
  backpack : List String
  kaioken_on : Bool
  kaioken_mult : ℤ
  kaioken_pl0 : ℤ
  kaioken_cost_unit : ℤ
  kaioken_mult_cfg : ℤ
  form_name : String
  form_stack : List Snapshot
  hp : ℤ
  ki : ℤ
  exp : ℤ
  is_player : Bool
  terminated_at : Option ℚ
deriving DecidableEq

/-- game.py lines 152-179: dataclass construction followed by __post_init__
(hp := max_hp, ki := max_ki); Kaioken status fields start inactive, the form
stack empty, the form name "Base". -/
def mkCharacter (name : String) (level power_level max_hp max_ki : ℤ)
    (abilities : List Ability) (backpack : List String)
    (kaioken_mult_cfg exp : ℤ) : Character :=
  { name := name
    level := level
    power_level := power_level
    max_hp := max_hp
    max_ki := max_ki
    abilities := abilities
    backpack := backpack
    kaioken_on := false
    kaioken_mult := 0
    kaioken_pl0 := 0
    kaioken_cost_unit := 7
    kaioken_mult_cfg := kaioken_mult_cfg
    form_name := "Base"
    form_stack := []
    hp := max_hp
    ki := max_ki
    exp := exp
    is_player := false
    terminated_at := none }

/-- game.py lines 218-219. -/
def Character.take_damage (c : Character) (dmg : ℤ) : Character :=
  { c with hp := max 0 (c.hp - dmg) }

/-- game.py lines 221-226: returns the success flag and the (possibly)
updated character. -/
def Character.spend_ki (c : Character) (cost : ℤ) : Bool × Character :=
  if c.ki < cost then (false, c)
  else (true, { c with ki := c.ki - cost })

/-- game.py lines 228-229. -/
def Character.is_alive (c : Character) : Bool := decide (0 < c.hp)

/-- game.py lines 94-102: Onda de Ki.  Same damage formula as card play with
fixed multipliers 3.0 and 1.0; returns the updated defender (the attacker is
not mutated). -/
def ki_wave (attacker defender : Character) : Character :=
  let atk_mul : ℚ := 3
  let def_mul : ℚ := 1
  let dmg_base : ℚ := 25 + (atk_mul - def_mul) * (872/100)
  let ratio : ℚ := (attacker.power_level : ℚ) / ((max 1 defender.power_level : ℤ) : ℚ)
  let dmg : ℤ := pyInt (dmg_base * ratio)
  defender.take_damage dmg

/-- game.py lines 105-108. -/
def heal (attacker : Character) : Character :=
  let amount : ℤ := pyInt ((attacker.max_hp : ℚ) * (3/10))
  { attacker with hp := min attacker.max_hp (attacker.hp + amount) }

/-- game.py lines 110-139: Kaioken activation.  For a human-controlled
attacker the multiplier comes from interactive input: `input` is none when
parsing failed, and a parsed non-positive value raises and cancels (lines
117-123).  For an automated attacker the configured multiplier is used and
`input` is ignored; the source performs no positivity check on that path
(line 125). -/
def kaioken (attacker : Character) (input : Option ℤ) : Character :=
  if attacker.kaioken_on then attacker
  else
    let m? : Option ℤ :=
      if attacker.is_player then
        match input with
        | none => none
        | some m => if m ≤ 0 then none else some m
      else some attacker.kaioken_mult_cfg
    match m? with
    | none => attacker
    | some mult =>
      let cost := attacker.kaioken_cost_unit * mult
      if attacker.ki < cost then attacker
      else
        { attacker with
          ki := attacker.ki - cost
          kaioken_on := true
          kaioken_mult := mult
          kaioken_pl0 := attacker.power_level
          power_level := pyInt ((attacker.power_level : ℚ) * (1 + (1/2) * (mult : ℚ))) }

/-- game.py lines 646-652. -/
def cancel_kaioken (c : Character) : Character :=
  if c.kaioken_on then
    { c with
      power_level := c.kaioken_pl0
      kaioken_on := false
      kaioken_mult := 0
      kaioken_pl0 := 0 }
  else c

/-- game.py lines 654-667: per-round Kaioken upkeep. -/
def process_kaioken (c : Character) : Character :=
  if c.kaioken_on = false then c
  else if c.kaioken_mult ≤ 0 then { c with kaioken_on := false }
  else
    let cost := c.kaioken_cost_unit * c.kaioken_mult
    if cost ≤ c.ki then { c with ki := c.ki - cost }
    else { c with power_level := c.kaioken_pl0, kaioken_on := false }

/-- game.py lines 191-214: play a card against a target defended by
`def_card`; returns the updated target (the attacker is not mutated; the
`atk_msg`/`def_msg` values of lines 208-209 are display only). -/
def Character.play_card (self : Character) (card : Card) (target : Character)
    (def_card : Card) : Character :=
  let atk_mul : ℚ := card.atk_mul * (1 + (card.number : ℚ) / 10)
  let def_mul : ℚ := def_card.def_mul * (1 + (def_card.number : ℚ) / 10)
  let diff := atk_mul - def_mul
  let dmg_base := 25 + diff * (872/100)
  let ratio : ℚ := (self.power_level : ℚ) / ((max 1 target.power_level : ℤ) : ℚ)
  let dmg : ℤ := pyInt (dmg_base * ratio)
  target.take_damage dmg

/-- game.py lines 145-150: append every configured skill whose level
requirement is met and whose name is not in the set of names known when the
loop started.  `learn` is the `HERO_CFG["learn"]` table in insertion order;
`catalog` is `ABILITY_CATALOG` (assumed total, cf. spec section 7 on
configuration integrity). -/
def maybe_learn_skills (catalog : String → Ability) (learn : List (String × ℤ))
    (c : Character) : Character :=
  let learned := c.abilities.map (·.name)
  let gained :=
    (learn.filter fun r => decide (r.2 ≤ c.level) && !(learned.contains r.1)).map
      fun r => catalog r.1
  { c with abilities := c.abilities ++ gained }

/-- game.py lines 240-247: level up; the `random.uniform(1.15, 1.20)` draw is
the oracle `factor`. -/
def level_up (catalog : String → Ability) (learn : List (String × ℤ))
    (factor : ℚ) (c : Character) : Character :=
  let c1 := { c with level := c.level + 1 }
  let c2 := { c1 with power_level := pyInt ((c1.power_level : ℚ) * factor) }
  let c3 := { c2 with
    max_hp := pyInt ((c2.max_hp : ℚ) * (105/100))
    max_ki := pyInt ((c2.max_ki : ℚ) * (105/100)) }
  let c4 := { c3 with hp := c3.max_hp, ki := c3.max_ki }
  maybe_learn_skills catalog learn c4

/-- game.py lines 235-238: the while loop of `gain_exp`, written with
explicit fuel (the loop consumes at least 100 exp per iteration whenever
level ≥ 1, so the fuel chosen by `gain_exp` suffices; see
`gainExpLoop_fuel_stable`).  `factors` supplies the `random.uniform` draw of
each `level_up`, indexed by the level being left. -/
def gainExpLoop (catalog : String → Ability) (learn : List (String × ℤ))
    (factors : ℤ → ℚ) : ℕ → Character → Character
  | 0, c => c
  | fuel + 1, c =>
    if 100 * c.level ≤ c.exp then
      gainExpLoop catalog learn factors fuel
        (level_up catalog learn (factors c.level) { c with exp := c.exp - 100 * c.level })
    else c

/-- game.py lines 232-238: `gain_exp`. -/
def gain_exp (catalog : String → Ability) (learn : List (String × ℤ))
    (factors : ℤ → ℚ) (amount : ℤ) (c : Character) : Character :=
  gainExpLoop catalog learn factors (c.exp + amount).toNat { c with exp := c.exp + amount }

/-- game.py lines 669-687: list the transformations that can be chosen now. -/
def can_transform (c : Character) (cfg : List Transformation) : List Transformation :=
  cfg.filter fun t =>
    if c.level < t.level_enabled then false
    else if t.name = c.form_name then false
    else
      match t.required with
      | none => c.form_name == "Base" && c.form_stack.isEmpty
      | some req => c.form_name == req

/-- game.py lines 689-717: apply a transformation (cancel Kaioken first, push
a snapshot, rescale the stats, record the transformation's threshold). -/
def apply_transformation (c0 : Character) (t : Transformation) : Character :=
  let c := cancel_kaioken c0
  let snap : Snapshot :=
    { name := c.form_name
      power_level := c.power_level
      max_hp := c.max_hp
      max_ki := c.max_ki
      hp := c.hp
      ki := c.ki }
  let newPL := pyInt ((c.power_level : ℚ) * t.mulPL)
  let newMaxHp := pyInt ((c.max_hp : ℚ) * t.mulHP)
  let newMaxKi := pyInt ((c.max_ki : ℚ) * t.mulKI)
  { c with
    form_stack := snap :: c.form_stack
    power_level := newPL
    max_hp := newMaxHp
    max_ki := newMaxKi
    hp := min (pyInt ((c.hp : ℚ) * t.mulHP)) newMaxHp
    ki := min (pyInt ((c.ki : ℚ) * t.mulKI)) newMaxKi
    form_name := t.name
    terminated_at := t.threshold }

/-- game.py lines 719-737: revert to the previous form (no-op when the stack
is empty; otherwise cancel Kaioken, pop one snapshot, restore, clamp hp/ki,
clear the threshold). -/
def revert_form (c0 : Character) : Character :=
  match c0.form_stack with
  | [] => c0
  | last :: rest =>
    let c := cancel_kaioken c0
    { c with
      form_stack := rest
      form_name := last.name
      power_level := last.power_level
      max_hp := last.max_hp
      max_ki := last.max_ki
      hp := min c.hp last.max_hp
      ki := min c.ki last.max_ki
      terminated_at := none }

/-- game.py lines 739-754: the once-per-round auto-revert check.  On the
branch where the source would execute `char.form_stack.pop()` on an empty
list (raising IndexError), the state is returned unchanged after the Kaioken
cancellation; that branch is proved unreachable from any freshly created
character (claim C10). -/
def check_revert (c0 : Character) : Character :=
  match c0.terminated_at with
  | none => c0
  | some thr =>
    if (c0.hp : ℚ) / (c0.max_hp : ℚ) ≤ thr then
      let c := cancel_kaioken c0
      match c.form_stack with
      | [] => c
      | last :: rest =>
        { c with
          form_stack := rest
          form_name := last.name
          power_level := last.power_level
          max_hp := last.max_hp
          max_ki := last.max_ki
          hp := min c.hp last.max_hp
          ki := min c.ki last.max_ki
          terminated_at := none }
    else c0

/-- The configuration of the guarded pop inside `check_revert` (game.py line
746) that would raise IndexError: threshold present but the form stack
empty. -/
def checkRevertUnsafe (c : Character) : Bool :=
  c.terminated_at.isSome && c.form_stack.isEmpty

/-- game.py lines 429-436: the post-battle `while ch.form_stack:` loop that
pops every snapshot, restoring the popped fields and clamping hp/ki each
time.  The list argument is the current form stack (kept equal to
`c.form_stack` at every call). -/
def unwindLoop : List Snapshot → Character → Character
  | [], c => c
  | last :: rest, c =>
    unwindLoop rest
      { c with
        form_stack := rest
        form_name := last.name
        power_level := last.power_level
        max_hp := last.max_hp
        max_ki := last.max_ki
        hp := min c.hp last.max_hp
        ki := min c.ki last.max_ki }

/-- game.py lines 426-442: the per-character post-battle restoration
performed by `battle` on both combatants: fully unwind the form stack, clear
`terminated_at`, and if Kaioken is still on restore the saved power level and
switch it off (lines 439-441; note `kaioken_mult`/`kaioken_pl0` are not
reset there). -/
def battleCleanup (c : Character) : Character :=
  let c1 := unwindLoop c.form_stack c
  let c2 := { c1 with terminated_at := none }
  if c2.kaioken_on then { c2 with power_level := c2.kaioken_pl0, kaioken_on := false }
  else c2

/-- game.py lines 498-500: after its loop, `auto_battle` only announces the
winner; neither combatant's state is restored in any way. -/
def autoBattlePost (c : Character) : Character := c

/-- Python list indexing `l[i]` including negative-index wraparound; none
when the access would raise IndexError. -/
def pyGet {α : Type} (l : List α) (i : ℤ) : Option α :=
  if 0 ≤ i then l[i.toNat]?
  else if (-i).toNat ≤ l.length then l[(l.length - (-i).toNat)]? else none

/-- Python `l.pop(i)` as the remaining list (only used where `pyGet` has
already succeeded). -/
def pyRemoveAt {α : Type} (l : List α) (i : ℤ) : List α :=
  if 0 ≤ i then l.eraseIdx i.toNat
  else l.eraseIdx (l.length - (-i).toNat)

/-- game.py lines 557-566. -/
def apply_item (c : Character) (item : String) : Character :=
  if item = "Elixir de Poder" then
    { c with power_level := pyInt ((c.power_level : ℚ) * (11/10)) }
  else if item = "Poção de Cura" then
    let heal_amt := pyInt ((c.max_hp : ℚ) * (1/2))
    { c with hp := min c.max_hp (c.hp + heal_amt) }
  else c

/-- game.py lines 568-580: item menu.  `input` is the parsed number entered
by the user (none when parsing raised ValueError); the source pops
`backpack[int(input) - 1]` with Python indexing and applies the item, and any
IndexError cancels with no state change. -/
def use_item_menu (c : Character) (input : Option ℤ) : Character :=
  if c.backpack = [] then c
  else
    match input with
    | none => c
    | some k =>
      let idx := k - 1
      match pyGet c.backpack idx with
      | none => c
      | some item => apply_item { c with backpack := pyRemoveAt c.backpack idx } item

/-- game.py lines 529-545: resolve the ability menu.  `input` is the parsed
number (none when int() raised); 0 means back; otherwise Python indexing
into the abilities list, IndexError giving none. -/
def pick_ability (c : Character) (input : Option ℤ) : Option Ability :=
  if c.abilities = [] then none
  else
    match input with
    | none => none
    | some k => if k = 0 then none else pyGet c.abilities (k - 1)

/-- game.py lines 94-139 dispatch: interpret an ability effect on (attacker,
defender); returns both updated.  `kaiokenInput` is the interactive
multiplier for a human attacker (ignored on the automated path). -/
def applyEffect (k : EffKind) (attacker defender : Character)
    (kaiokenInput : Option ℤ) : Character × Character :=
  match k with
  | .kiWaveE => (attacker, ki_wave attacker defender)
  | .healE => (heal attacker, defender)
  | .kaiokenE => (kaioken attacker kaiokenInput, defender)

/-- game.py lines 828-832: the fixed ability catalog built in `main`. -/
def ondaDeKi : Ability := ⟨"Onda de Ki", 40, "Explosão de energia", .kiWaveE⟩

def cura : Ability := ⟨"Cura", 30, "Recupera HP", .healE⟩

def kaiokenAb : Ability := ⟨"Kaioken", 0, "Aumenta PL (custa Ki por turno)", .kaiokenE⟩

/-- game.py lines 369-375: the transform submenu selection, already parsed:
input "0" is revert; any other parsed number n is `pick (n - 1)` (an index
into the list returned by `can_transform`, with Python indexing); a
non-numeric input is `invalid` (transformation cancelled). -/
inductive TSel where
  | revert
  | pick (i : ℤ)
  | invalid
deriving DecidableEq

/-- The human side's validated round choice (game.py lines 326-335 guarantee
the raw input is one of q/i/a/t or an in-range card number before the round
proceeds).  The payloads carry the subsequent interactive inputs:
for `i` the item number, for `a` the ability-menu number and the Kaioken
multiplier input, for `t` the submenu selection. -/
inductive PChoice where
  | q
  | i (input : Option ℤ)
  | a (pick : Option ℤ) (kaiokenInput : Option ℤ)
  | t (sel : TSel)
  | card (k : ℕ)
deriving DecidableEq

/-- The automated side's choice as returned by `AIPlayer.choose` ("a" or a
card number); `randPick` and `altPick` are the oracles for the two
`random.choice` calls in the engine's automated-action branch (game.py lines
388-396).  The `i` constructor models the engine's item branch (line 397),
present in the source although `AIPlayer.choose` never returns "i". -/
inductive EChoice where
  | a (randPick : ℕ) (altPick : ℕ)
  | i (input : Option ℤ)
  | card (k : ℕ)
deriving DecidableEq

/-- game.py lines 503-506: `choice_to_card` for a digit choice k. -/
def cardAt (hand : List Card) (k : ℕ) : Option Card :=
  if 1 ≤ k ∧ k ≤ hand.length then hand[k - 1]? else none

def pChoiceCard (c : PChoice) (hand : List Card) : Option Card :=
  match c with
  | .card k => cardAt hand k
  | _ => none

def eChoiceCard (c : EChoice) (hand : List Card) : Option Card :=
  match c with
  | .card k => cardAt hand k
  | _ => none

/-- game.py lines 358-377: the player's transform turn. -/
def transformTurn (p : Character) (cfg : List Transformation) (sel : TSel) : Character :=
  let opts := can_transform p cfg
  if opts.isEmpty && p.form_stack.isEmpty then p
  else
    match sel with
    | .revert => revert_form p
    | .pick i =>
      match pyGet opts i with
      | some tr => apply_transformation p tr
      | none => p
    | .invalid => p

/-- game.py lines 346-380: the player's action phase of one interactive
round (the `q` and ability-cancelled cases are intercepted by `battleRound`
before this function is reached; they return the state unchanged here).
Returns (player, enemy) after the action. -/
def playerAct (p e : Character) (choice : PChoice) (p_card e_card : Option Card)
    (cfg : List Transformation) : Character × Character :=
  match choice with
  | .q => (p, e)
  | .i input => (use_item_menu p input, e)
  | .a pick kaiokenInput =>
    match pick_ability p pick with
    | none => (p, e)
    | some ab =>
      let s := p.spend_ki ab.ki_cost
      if s.1 then applyEffect ab.eff s.2 e kaiokenInput else (s.2, e)
  | .t sel => (transformTurn p cfg sel, e)
  | .card _ =>
    match p_card with
    | some c => (p, p.play_card c e (e_card.getD c))
    | none => (p, e)

/-- game.py lines 387-400: the automated side's action phase (an affordable
random ability, else a random card with the self-reference fallback for the
defending card).  Returns (enemy, player) after the action. -/
def enemyAct (e p : Character) (eHand : List Card) (choice : EChoice)
    (p_card e_card : Option Card) : Character × Character :=
  match choice with
  | .a randPick altPick =>
    let usable := e.abilities.filter fun ab => decide (ab.ki_cost ≤ e.ki)
    if usable.isEmpty then
      match eHand[altPick % eHand.length]? with
      | some alt => (e, e.play_card alt p (p_card.getD alt))
      | none => (e, p)
    else
      match usable[randPick % usable.length]? with
      | some ab =>
        let e1 := (e.spend_ki ab.ki_cost).2
        applyEffect ab.eff e1 p none
      | none => (e, p)
  | .i input => (use_item_menu e input, p)
  | .card _ =>
    match e_card with
    | some c => (e, e.play_card c p (p_card.getD c))
    | none => (e, p)

structure RoundIn where
  p : Character
  e : Character
  pHand : List Card
  eHand : List Card
  deck : List Card
  rnd : ℤ
deriving DecidableEq

structure RoundOut where
  p : Character
  e : Character
  pHand : List Card
  eHand : List Card
  deck : List Card
  rnd : ℤ
  quit : Bool
deriving DecidableEq

/-- game.py line 350-354: the interactive ability turn is abandoned (with
`rnd -= 1; continue`) exactly when the ability menu resolves to nothing. -/
def abilityCancelled (p : Character) : PChoice → Bool
  | .a pick _ => (pick_ability p pick).isNone
  | _ => false

/-- game.py lines 314-412: one iteration of the interactive battle loop.
Upkeep (boost upkeep then auto-revert check, player first), then the
player's validated choice: `q` returns immediately with the quit flag; a
cancelled ability menu rolls the round counter back and restarts the round
(`continue`); otherwise the player acts, the battle breaks before the enemy
acts if the enemy dropped to 0 hp, otherwise the enemy acts and the played
cards are removed from the hands, which are then refilled to 5 from the
shared deck (`reshuffle1`/`reshuffle2` are the shuffle oracles for a rebuild
in those two draws). -/
def battleRound (inp : RoundIn) (pChoice : PChoice) (eChoice : EChoice)
    (cfg : List Transformation) (reshuffle1 reshuffle2 : List Card) : RoundOut :=
  let pA := process_kaioken inp.p
  let eA := process_kaioken inp.e
  let p2 := check_revert pA
  let e2 := check_revert eA
  let rnd1 := inp.rnd + 1
  if pChoice = PChoice.q then
    ⟨p2, e2, inp.pHand, inp.eHand, inp.deck, rnd1, true⟩
  else if abilityCancelled p2 pChoice then
    ⟨p2, e2, inp.pHand, inp.eHand, inp.deck, rnd1 - 1, false⟩
  else
    let p_card := pChoiceCard pChoice inp.pHand
    let e_card := eChoiceCard eChoice inp.eHand
    let pe := playerAct p2 e2 pChoice p_card e_card cfg
    if pe.2.is_alive = false then
      ⟨pe.1, pe.2, inp.pHand, inp.eHand, inp.deck, rnd1, false⟩
    else
      let ep := enemyAct pe.2 pe.1 inp.eHand eChoice p_card e_card
      let pHand1 := match p_card with
        | some c => inp.pHand.erase c
        | none => inp.pHand
      let eHand1 := match e_card with
        | some c => inp.eHand.erase c
        | none => inp.eHand
      let d1 := drawStep inp.deck (5 - pHand1.length) reshuffle1
      let d2 := drawStep d1.2 (5 - eHand1.length) reshuffle2
      ⟨ep.2, ep.1, pHand1 ++ d1.1, eHand1 ++ d2.1, d2.2, rnd1, false⟩

/-- The single-character state mutations performed anywhere in the program
(two-character actions decompose into these: an incoming card or ki wave is a
`takeDmg` with the computed damage on the defender's side, and the attacker
is unchanged by them). -/
inductive Op where
  | applyTrans (t : Transformation)
  | revertF
  | checkRev
  | processK
  | cancelK
  | kaiokenAct (input : Option ℤ)
  | takeDmg (d : ℤ)
  | healAct
  | spendK (cost : ℤ)
  | gainExpAct (catalog : String → Ability) (learn : List (String × ℤ))
      (factors : ℤ → ℚ) (amount : ℤ)
  | itemUse (input : Option ℤ)
  | setPlayer (b : Bool)
  | cleanup

def step (o : Op) (c : Character) : Character :=
  match o with
  | .applyTrans t => apply_transformation c t
  | .revertF => revert_form c
  | .checkRev => check_revert c
  | .processK => process_kaioken c
  | .cancelK => cancel_kaioken c
  | .kaiokenAct input => kaioken c input
  | .takeDmg d => c.take_damage d
  | .healAct => heal c
  | .spendK cost => (c.spend_ki cost).2
  | .gainExpAct catalog learn factors amount => gain_exp catalog learn factors amount c
  | .itemUse input => use_item_menu c input
  | .setPlayer b => { c with is_player := b }
  | .cleanup => battleCleanup c

def run (ops : List Op) (c : Character) : Character :=
  ops.foldl (fun s o => step o s) c

/-- Modelled from the spec's progression rule (section 4.6), tracking only
the (level, exp) counters: exp += amount, then while exp ≥ 100*level:
exp -= 100*level and level up.  Written with the same fuel as the code's
loop so the two recursions can be compared step by step. -/
def gainExpSpecLoop : ℕ → ℤ → ℤ → ℤ × ℤ
  | 0, level, e => (level, e)
  | fuel + 1, level, e =>
    if 100 * level ≤ e then gainExpSpecLoop fuel (level + 1) (e - 100 * level)
    else (level, e)

def gainExpSpec (level e amount : ℤ) : ℤ × ℤ :=
  gainExpSpecLoop (e + amount).toNat level (e + amount)

/-- The baseline power level recorded by the battle-scoped overlay: the
bottom snapshot of the form stack when one exists, else the boost's saved
pre-activation value when the boost is on, else the current value. -/
def baselinePL (c : Character) : ℤ :=
  match c.form_stack.getLast? with
  | some s => s.power_level
  | none => if c.kaioken_on then c.kaioken_pl0 else c.power_level

def baselineMaxHp (c : Character) : ℤ :=
  match c.form_stack.getLast? with
  | some s => s.max_hp
  | none => c.max_hp

def baselineMaxKi (c : Character) : ℤ :=
  match c.form_stack.getLast? with
  | some s => s.max_ki
  | none => c.max_ki

/-- The invariant protecting the unguarded pop of `check_revert` (game.py
line 746): whenever a revert threshold is recorded, the form stack is
non-empty. -/
def StackInv (c : Character) : Prop :=
  c.terminated_at = none ∨ c.form_stack ≠ []

/-- A doubling transformation with no threshold (shape of a
heroes_types.json entry). -/
def tSuper : Transformation := ⟨"Super", none, 1, 2, 1, 1, none⟩

/-- A first-chain transformation with revert threshold 0.5 that doubles
power and max hp. -/
def tFormOne : Transformation := ⟨"F1", none, 1, 2, 2, 1, some (1/2)⟩

/-- A second-chain transformation on top of tFormOne, same multipliers and
threshold. -/
def tFormTwo : Transformation := ⟨"F2", some "F1", 1, 2, 2, 1, some (1/2)⟩

/-- A fresh automated character knowing Kaioken whose configured multiplier
is the dataclass default 0 (game.py line 167), as produced by
`load_creatures` for an ability entry written "Kaioken" without the
colon-separated configuration (game.py lines 596-614). -/
def aiKaiokenChar : Character := mkCharacter "E" 1 1000 500 200 [kaiokenAb] [] 0 0

/-- A fresh human-controlled character (is_player set by Player.__init__,
game.py line 272). -/
def humanChar : Character :=
  { mkCharacter "H" 1 1000 500 200 [kaiokenAb] [] 0 0 with is_player := true }

/-- humanChar after transforming (doubling power to 2000) and then
activating Kaioken x1 on top (power 3000, saved pre-activation value 2000):
a state reachable during an interactive battle. -/
def boostedOnTransformed : Character :=
  kaioken (apply_transformation humanChar tSuper) (some 1)

/-- A character two transformation levels deep (power 4000, max hp 2000)
that has just taken 1500 damage, putting it at hp 500, below the 0.5
threshold of the active form. -/
def doubleFormLowHp : Character :=
  (apply_transformation
    (apply_transformation (mkCharacter "G" 1 1000 500 200 [] [] 0 0) tFormOne)
    tFormTwo).take_damage 1500

/-- humanChar after activating Kaioken x2 while untransformed: power level
2000, saved pre-activation value 1000. -/
def boostedHuman : Character := kaioken humanChar (some 2)

/-- The player side of the concrete C5 round: a fresh human knowing only
Onda de Ki (ki cost 40) who has spent ki down to 10. -/
def c5p : Character :=
  { ((mkCharacter "H" 1 1000 500 200 [ondaDeKi] [] 0 0).spend_ki 190).2 with is_player := true }

def c5e : Character := mkCharacter "Zorin" 1 1000 500 200 [] [] 0 0

def c5pHand : List Card := [⟨1, .circle⟩, ⟨2, .circle⟩, ⟨3, .circle⟩, ⟨4, .circle⟩, ⟨5, .circle⟩]

def c5eHand : List Card := [⟨7, .star⟩, ⟨1, .circle⟩, ⟨2, .circle⟩, ⟨3, .circle⟩, ⟨4, .circle⟩]

/-- The concrete C5 round input: round 1, one card left in the deck. -/
def c5in : RoundIn := ⟨c5p, c5e, c5pHand, c5eHand, [⟨1, .triangle⟩], 1⟩

/-- A round whose player side is transformed with a boost active on top
(power 3000, one stacked form), about to forfeit. -/
def c1qIn : RoundIn := ⟨boostedOnTransformed, c5e, c5pHand, c5eHand, [], 1⟩

theorem pyInt_eq_floor (q : ℚ) (h : 0 ≤ q) : pyInt q = ⌊q⌋ := by
  simp [pyInt, h]

theorem cancel_kaioken_hp (c : Character) : (cancel_kaioken c).hp = c.hp := by
  unfold cancel_kaioken; split <;> rfl

theorem cancel_kaioken_max_hp (c : Character) : (cancel_kaioken c).max_hp = c.max_hp := by
  unfold cancel_kaioken; split <;> rfl

theorem cancel_kaioken_ki (c : Character) : (cancel_kaioken c).ki = c.ki := by
  unfold cancel_kaioken; split <;> rfl

theorem cancel_kaioken_form_stack (c : Character) :
    (cancel_kaioken c).form_stack = c.form_stack := by
  unfold cancel_kaioken; split <;> rfl

theorem cancel_kaioken_terminated_at (c : Character) :
    (cancel_kaioken c).terminated_at = c.terminated_at := by
  unfold cancel_kaioken; split <;> rfl

theorem cancel_kaioken_on (c : Character) : (cancel_kaioken c).kaioken_on = false := by
  unfold cancel_kaioken; split
  · rfl
  · rename_i h; simpa using h

theorem cancel_kaioken_of_off (c : Character) (h : c.kaioken_on = false) :
    cancel_kaioken c = c := by
  simp [cancel_kaioken, h]

theorem unwindLoop_form_stack_cons (a : Snapshot) (l : List Snapshot) :
    ∀ c : Character, (unwindLoop (a :: l) c).form_stack = [] := by
  induction l generalizing a with
  | nil => intro c; rfl
  | cons b l' ih => intro c; exact ih b _

theorem unwindLoop_power_level :
    ∀ (l : List Snapshot) (c : Character),
      (unwindLoop l c).power_level =
        (match l.getLast? with
         | some s => s.power_level
         | none => c.power_level) := by
  intro l
  induction l with
  | nil => intro c; rfl
  | cons a l ih =>
    intro c
    rw [unwindLoop, ih]
    cases l with
    | nil => rfl
    | cons b l' =>
      rw [List.getLast?_cons_cons]
      cases h : (b :: l').getLast? with
      | some s => simp [h]
      | none => simp at h

theorem unwindLoop_max_hp :
    ∀ (l : List Snapshot) (c : Character),
      (unwindLoop l c).max_hp =
        (match l.getLast? with
         | some s => s.max_hp
         | none => c.max_hp) := by
  intro l
  induction l with
  | nil => intro c; rfl
  | cons a l ih =>
    intro c
    rw [unwindLoop, ih]
    cases l with
    | nil => rfl
    | cons b l' =>
      rw [List.getLast?_cons_cons]
      cases h : (b :: l').getLast? with
      | some s => simp [h]
      | none => simp at h

theorem unwindLoop_max_ki :
    ∀ (l : List Snapshot) (c : Character),
      (unwindLoop l c).max_ki =
        (match l.getLast? with
         | some s => s.max_ki
         | none => c.max_ki) := by
  intro l
  induction l with
  | nil => intro c; rfl
  | cons a l ih =>
    intro c
    rw [unwindLoop, ih]
    cases l with
    | nil => rfl
    | cons b l' =>
      rw [List.getLast?_cons_cons]
      cases h : (b :: l').getLast? with
      | some s => simp [h]
      | none => simp at h

theorem unwindLoop_kaioken_on :
    ∀ (l : List Snapshot) (c : Character), (unwindLoop l c).kaioken_on = c.kaioken_on := by
  intro l
  induction l with
  | nil => intro c; rfl
  | cons a l ih => intro c; exact ih _

theorem unwindLoop_kaioken_pl0 :
    ∀ (l : List Snapshot) (c : Character), (unwindLoop l c).kaioken_pl0 = c.kaioken_pl0 := by
  intro l
  induction l with
  | nil => intro c; rfl
  | cons a l ih => intro c; exact ih _

theorem level_up_level (catalog : String → Ability) (learn : List (String × ℤ))
    (f : ℚ) (c : Character) : (level_up catalog learn f c).level = c.level + 1 := rfl

theorem level_up_exp (catalog : String → Ability) (learn : List (String × ℤ))
    (f : ℚ) (c : Character) : (level_up catalog learn f c).exp = c.exp := rfl

theorem level_up_form_stack (catalog : String → Ability) (learn : List (String × ℤ))
    (f : ℚ) (c : Character) : (level_up catalog learn f c).form_stack = c.form_stack := rfl

theorem level_up_terminated_at (catalog : String → Ability) (learn : List (String × ℤ))
    (f : ℚ) (c : Character) : (level_up catalog learn f c).terminated_at = c.terminated_at := rfl

theorem gainExpLoop_form_stack (catalog : String → Ability) (learn : List (String × ℤ))
    (f : ℤ → ℚ) : ∀ (fuel : ℕ) (c : Character),
      (gainExpLoop catalog learn f fuel c).form_stack = c.form_stack := by
  intro fuel
  induction fuel with
  | zero => intro c; rfl
  | succ fuel ih =>
    intro c
    rw [gainExpLoop]
    split
    · exact ih _
    · rfl

theorem gainExpLoop_terminated_at (catalog : String → Ability) (learn : List (String × ℤ))
    (f : ℤ → ℚ) : ∀ (fuel : ℕ) (c : Character),
      (gainExpLoop catalog learn f fuel c).terminated_at = c.terminated_at := by
  intro fuel
  induction fuel with
  | zero => intro c; rfl
  | succ fuel ih =>
    intro c
    rw [gainExpLoop]
    split
    · exact ih _
    · rfl

theorem gainExp_loop_agree (catalog : String → Ability) (learn : List (String × ℤ))
    (f : ℤ → ℚ) : ∀ (fuel : ℕ) (c : Character),
      ((gainExpLoop catalog learn f fuel c).level, (gainExpLoop catalog learn f fuel c).exp)
        = gainExpSpecLoop fuel c.level c.exp := by
  intro fuel
  induction fuel with
  | zero => intro c; rfl
  | succ fuel ih =>
    intro c
    rw [gainExpLoop, gainExpSpecLoop]
    by_cases h : 100 * c.level ≤ c.exp
    · rw [if_pos h, if_pos h, ih]
      rfl
    · rw [if_neg h, if_neg h]

/-- Fuel adequacy of the embedded exp loop: with the level positive (as it
always is for game characters) and enough fuel to cover the exp to consume,
one more unit of fuel changes nothing, so `gain_exp` computes the limit of
the source's unbounded while loop. -/
theorem gainExpLoop_fuel_stable (catalog : String → Ability) (learn : List (String × ℤ))
    (f : ℤ → ℚ) : ∀ (fuel : ℕ) (c : Character), c.exp ≤ 100 * fuel → 0 < c.level →
      gainExpLoop catalog learn f (fuel + 1) c = gainExpLoop catalog learn f fuel c := by
  intro fuel
  induction fuel with
  | zero =>
    intro c h hl
    have hg : ¬ 100 * c.level ≤ c.exp := by omega
    conv_lhs => rw [gainExpLoop]
    rw [if_neg hg]
    rfl
  | succ fuel ih =>
    intro c h hl
    by_cases hg : 100 * c.level ≤ c.exp
    · conv_lhs => rw [gainExpLoop]
      conv_rhs => rw [gainExpLoop]
      rw [if_pos hg, if_pos hg]
      apply ih
      · show c.exp - 100 * c.level ≤ 100 * (fuel : ℤ)
        omega
      · show 0 < c.level + 1
        omega
    · conv_lhs => rw [gainExpLoop]
      conv_rhs => rw [gainExpLoop]
      rw [if_neg hg, if_neg hg]

theorem take_damage_ki (c : Character) (d : ℤ) : (c.take_damage d).ki = c.ki := rfl

theorem play_card_target_ki (a : Character) (cd : Card) (t : Character) (dc : Card) :
    (a.play_card cd t dc).ki = t.ki := rfl

theorem ki_wave_target_ki (a d : Character) : (ki_wave a d).ki = d.ki := rfl

theorem use_item_menu_none (c : Character) : use_item_menu c none = c := by
  unfold use_item_menu; split <;> rfl

/-- The automated side's action never changes the opposing character's ki
(incoming effects only reduce hp). -/
theorem enemyAct_p_ki (e p : Character) (hand : List Card) (ch : EChoice)
    (pc ec : Option Card) : (enemyAct e p hand ch pc ec).2.ki = p.ki := by
  cases ch with
  | a r alt =>
    simp only [enemyAct]
    split
    · split <;> rfl
    · split
      · rename_i ab heq
        cases ab.eff <;> rfl
      · rfl
  | i input => rfl
  | card k => cases ec <;> rfl

/-- C6: for every character (level ≥ 1 as for all game characters; the
refinement below holds for every state), catalog, skill table and
random-factor oracle, gain_exp adds the amount to exp and then, while
exp ≥ 100*level, subtracts 100*level and performs one level-up, the
threshold being recomputed from the new level each iteration (stated as
agreement of the (level, exp) counters with the spec's loop); in particular
a character at level 1 with exp 0 given 250 exp ends at exactly level 2 with
exp 150. -/
theorem C6_gain_exp_cascade (catalog : String → Ability) (learn : List (String × ℤ))
    (factors : ℤ → ℚ) (c : Character) (amount : ℤ) :
    ((gain_exp catalog learn factors amount c).level,
      (gain_exp catalog learn factors amount c).exp)
      = gainExpSpec c.level c.exp amount
    ∧ (gain_exp catalog learn factors 250 (mkCharacter "hero" 1 1000 500 200 [] [] 0 0)).level = 2
    ∧ (gain_exp catalog learn factors 250 (mkCharacter "hero" 1 1000 500 200 [] [] 0 0)).exp = 150 := by
  have h1 : ∀ c' : Character,
      ((gain_exp catalog learn factors amount c').level,
        (gain_exp catalog learn factors amount c').exp)
        = gainExpSpec c'.level c'.exp amount := by
    intro c'
    unfold gain_exp
    rw [gainExp_loop_agree]
    rfl
  have h0 : ((gain_exp catalog learn factors 250 (mkCharacter "hero" 1 1000 500 200 [] [] 0 0)).level,
      (gain_exp catalog learn factors 250 (mkCharacter "hero" 1 1000 500 200 [] [] 0 0)).exp)
      = gainExpSpec 1 0 250 := by
    unfold gain_exp
    rw [gainExp_loop_agree]
    rfl
  have h2 : gainExpSpec 1 0 250 = (2, 150) := by decide
  exact ⟨h1 c, congrArg Prod.fst (h0.trans h2), congrArg Prod.snd (h0.trans h2)⟩

/-- C7 (amended): for every character state whose boost is inactive,
applying a transformation and immediately reverting restores power_level,
max_hp, max_ki and form_name exactly, and leaves hp and ki no greater than
the restored maxima.  (When a boost is active, apply_transformation cancels
it before snapshotting, so the round trip restores the pre-boost power
level instead; see the counterexample.) -/
theorem C7_transformation_round_trip (c : Character) (t : Transformation)
    (h : c.kaioken_on = false) :
    (revert_form (apply_transformation c t)).power_level = c.power_level
    ∧ (revert_form (apply_transformation c t)).max_hp = c.max_hp
    ∧ (revert_form (apply_transformation c t)).max_ki = c.max_ki
    ∧ (revert_form (apply_transformation c t)).form_name = c.form_name
    ∧ (revert_form (apply_transformation c t)).hp
        ≤ (revert_form (apply_transformation c t)).max_hp
    ∧ (revert_form (apply_transformation c t)).ki
        ≤ (revert_form (apply_transformation c t)).max_ki := by
  refine ⟨?_, ?_, ?_, ?_, ?_, ?_⟩ <;>
    simp [apply_transformation, revert_form, cancel_kaioken, h, min_le_right]

/-- C7 witness: the round trip at a fresh (boost-inactive) character and the
doubling transformation restores the power level exactly. -/
theorem C7_witness :
    (mkCharacter "w" 1 1000 500 200 [] [] 0 0).kaioken_on = false
    ∧ (revert_form (apply_transformation (mkCharacter "w" 1 1000 500 200 [] [] 0 0) tSuper)).power_level
        = (mkCharacter "w" 1 1000 500 200 [] [] 0 0).power_level := by
  refine ⟨by decide, ?_⟩
  exact (C7_transformation_round_trip (mkCharacter "w" 1 1000 500 200 [] [] 0 0) tSuper (by decide)).1

/-- C7 counterexample: a character with an active Kaioken x2 (power 2000,
saved pre-boost value 1000) that applies a transformation and immediately
reverts ends at power 1000, not at its pre-transformation power 2000:
the round trip does not restore power_level for boost-active states. -/
theorem C7_counterexample :
    boostedHuman.kaioken_on = true
    ∧ boostedHuman.power_level = 2000
    ∧ (revert_form (apply_transformation boostedHuman tSuper)).power_level = 1000 := by
  exact ⟨by decide, by decide, by decide⟩

/-- C8 (amended): per-round boost upkeep is a no-op when the boost is
inactive; when active with multiplier m > 0 it deducts exactly
boost_cost_unit * m from ki if ki suffices and otherwise force-deactivates,
restoring power_level to the saved value with ki unchanged; but when active
with multiplier m ≤ 0 (reachable via the automated activation path, see C2)
it silently deactivates, leaving both ki and power_level unchanged. -/
theorem C8_process_kaioken (c : Character) :
    (c.kaioken_on = false → process_kaioken c = c)
    ∧ (c.kaioken_on = true → c.kaioken_mult ≤ 0 →
        (process_kaioken c).kaioken_on = false
        ∧ (process_kaioken c).ki = c.ki
        ∧ (process_kaioken c).power_level = c.power_level)
    ∧ (c.kaioken_on = true → 0 < c.kaioken_mult →
        c.kaioken_cost_unit * c.kaioken_mult ≤ c.ki →
        (process_kaioken c).ki = c.ki - c.kaioken_cost_unit * c.kaioken_mult
        ∧ (process_kaioken c).kaioken_on = true
        ∧ (process_kaioken c).power_level = c.power_level)
    ∧ (c.kaioken_on = true → 0 < c.kaioken_mult →
        c.ki < c.kaioken_cost_unit * c.kaioken_mult →
        (process_kaioken c).kaioken_on = false
        ∧ (process_kaioken c).power_level = c.kaioken_pl0
        ∧ (process_kaioken c).ki = c.ki) := by
  refine ⟨?_, ?_, ?_, ?_⟩
  · intro h
    simp [process_kaioken, h]
  · intro h hm
    simp [process_kaioken, h, hm]
  · intro h hm hk
    have hm' : ¬ c.kaioken_mult ≤ 0 := not_le.mpr hm
    simp [process_kaioken, h, hm', hk]
  · intro h hm hk
    have hm' : ¬ c.kaioken_mult ≤ 0 := not_le.mpr hm
    have hk' : ¬ c.kaioken_cost_unit * c.kaioken_mult ≤ c.ki := not_le.mpr hk
    simp [process_kaioken, h, hm', hk']

/-- C8 witness: upkeep on an active Kaioken x2 with ample ki (cost 14,
ki 186) deducts exactly the cost. -/
theorem C8_witness :
    boostedHuman.kaioken_on = true
    ∧ 0 < boostedHuman.kaioken_mult
    ∧ boostedHuman.kaioken_cost_unit * boostedHuman.kaioken_mult ≤ boostedHuman.ki
    ∧ (process_kaioken boostedHuman).ki
        = boostedHuman.ki - boostedHuman.kaioken_cost_unit * boostedHuman.kaioken_mult := by
  refine ⟨by decide, by decide, by decide, ?_⟩
  exact ((C8_process_kaioken boostedHuman).2.2.1 (by decide) (by decide) (by decide)).1

/-- C8 counterexample: a boost active with multiplier 0 (produced by the
automated Kaioken activation with the default configured multiplier) has
cost 0 ≤ ki, yet the upkeep deactivates the boost instead of deducting the
cost and leaving it active as the claim states. -/
theorem C8_counterexample :
    (kaioken aiKaiokenChar none).kaioken_on = true
    ∧ (kaioken aiKaiokenChar none).kaioken_cost_unit * (kaioken aiKaiokenChar none).kaioken_mult
        ≤ (kaioken aiKaiokenChar none).ki
    ∧ (process_kaioken (kaioken aiKaiokenChar none)).kaioken_on = false
    ∧ (process_kaioken (kaioken aiKaiokenChar none)).ki = (kaioken aiKaiokenChar none).ki := by
  exact ⟨by decide, by decide, by decide, by decide⟩

/-- C9 (amended): for every deck state and every n ≤ 63, draw(n) first
rebuilds (yielding exactly 63 cards, a permutation of the canonical
multiset) whenever fewer than n cards remain, and then removes and returns
exactly n cards in deck order; for n > 63 the rebuilt deck cannot supply n
cards and draw returns only 63 (see the counterexample). -/
theorem C9_deck_draw (d : Deck) (n : ℕ) (resh : List Card)
    (hperm : resh.Perm buildCanonical) (hn : n ≤ 63) :
    buildCanonical.length = 63
    ∧ resh.length = 63
    ∧ (Deck.draw d n resh).1.length = n
    ∧ (Deck.draw d n resh).1 ++ (Deck.draw d n resh).2.cards
        = (if d.cards.length < n then resh else d.cards)
    ∧ (d.cards.length < n → Deck.draw d n resh = (resh.take n, ⟨resh.drop n⟩))
    ∧ (¬ d.cards.length < n → Deck.draw d n resh = (d.cards.take n, ⟨d.cards.drop n⟩)) := by
  have h63 : buildCanonical.length = 63 := by decide
  have hr : resh.length = 63 := by rw [hperm.length_eq, h63]
  refine ⟨h63, hr, ?_, ?_, ?_, ?_⟩
  · unfold Deck.draw drawStep
    by_cases hlt : d.cards.length < n
    · simp only [if_pos hlt, List.length_take]
      omega
    · simp only [if_neg hlt, List.length_take]
      omega
  · unfold Deck.draw drawStep
    by_cases hlt : d.cards.length < n
    · simp [if_pos hlt, List.take_append_drop]
    · simp [if_neg hlt, List.take_append_drop]
  · intro hlt
    simp [Deck.draw, drawStep, hlt]
  · intro hge
    simp [Deck.draw, drawStep, hge]

/-- C9 witness: drawing 5 from an empty deck rebuilds (here with the
identity shuffle) and returns exactly 5 cards. -/
theorem C9_witness :
    List.Perm buildCanonical buildCanonical
    ∧ (5 : ℕ) ≤ 63
    ∧ (Deck.draw ⟨[]⟩ 5 buildCanonical).1.length = 5 := by
  refine ⟨List.Perm.refl _, by decide, ?_⟩
  exact (C9_deck_draw ⟨[]⟩ 5 buildCanonical (List.Perm.refl _) (by decide)).2.2.1

/-- C9 counterexample: drawing 64 from an empty deck triggers a rebuild
(fewer than 64 cards remain), yet only 63 cards are returned — so "draw(n)
never returns fewer than n once a rebuild has occurred" fails for n = 64. -/
theorem C9_counterexample :
    (⟨[]⟩ : Deck).cards.length < 64
    ∧ List.Perm buildCanonical buildCanonical
    ∧ (Deck.draw ⟨[]⟩ 64 buildCanonical).1.length = 63
    ∧ (Deck.draw ⟨[]⟩ 64 buildCanonical).1.length < 64 := by
  exact ⟨by decide, List.Perm.refl _, by decide, by decide⟩

/-- C3: playing a card reduces the defender's hp to
max(0, hp - floor(dmg_base * aPL / max(1, dPL))) with the exact shared
formula, and the ki wave uses the same formula with fixed multipliers 3.0
and 1.0; a zero damage result is an ordinary outcome of the same total
function (exhibited in the witness).  The hypotheses are the data-model
ranges: card numbers in 1..7 and a non-negative attacker power level
(guaranteeing the damage value is non-negative, where Python's int()
truncation coincides with floor). -/
theorem C3_damage_formula (attacker target : Character) (card def_card : Card)
    (h1 : 1 ≤ card.number) (h2 : card.number ≤ 7)
    (h3 : 1 ≤ def_card.number) (h4 : def_card.number ≤ 7)
    (h5 : 0 ≤ attacker.power_level) :
    (attacker.play_card card target def_card).hp
      = max 0 (target.hp -
          ⌊(25 + (card.atk_mul * (1 + (card.number : ℚ) / 10)
              - def_card.def_mul * (1 + (def_card.number : ℚ) / 10)) * (872/100))
            * (attacker.power_level : ℚ) / ((max 1 target.power_level : ℤ) : ℚ)⌋)
    ∧ (ki_wave attacker target).hp
      = max 0 (target.hp -
          ⌊(25 + ((3 : ℚ) - 1) * (872/100))
            * (attacker.power_level : ℚ) / ((max 1 target.power_level : ℤ) : ℚ)⌋) := by
  have hden : (0:ℚ) < ((max 1 target.power_level : ℤ) : ℚ) := by
    have h := le_max_left (1:ℤ) target.power_level
    exact_mod_cast lt_of_lt_of_le zero_lt_one h
  have hratio : 0 ≤ (attacker.power_level : ℚ) / ((max 1 target.power_level : ℤ) : ℚ) :=
    div_nonneg (by exact_mod_cast h5) hden.le
  have hn1 : (1:ℚ) ≤ (card.number : ℚ) := by exact_mod_cast h1
  have hk1 : (1:ℚ) ≤ (def_card.number : ℚ) := by exact_mod_cast h3
  have hk2 : (def_card.number : ℚ) ≤ 7 := by exact_mod_cast h4
  have ha1 : 0 ≤ card.atk_mul := by
    unfold Card.atk_mul
    cases card.symbol <;> norm_num
  have hd1 : 0 ≤ def_card.def_mul := by
    unfold Card.def_mul
    cases def_card.symbol <;> norm_num
  have hd2 : def_card.def_mul ≤ 14/10 := by
    unfold Card.def_mul
    cases def_card.symbol <;> norm_num
  have hx : 0 ≤ card.atk_mul * (1 + (card.number : ℚ) / 10) :=
    mul_nonneg ha1 (by linarith)
  have hy : def_card.def_mul * (1 + (def_card.number : ℚ) / 10) ≤ (14/10) * (17/10) :=
    mul_le_mul hd2 (by linarith) (by linarith) (by norm_num)
  have hbase : (0:ℚ) ≤ 25 + (card.atk_mul * (1 + (card.number : ℚ) / 10)
      - def_card.def_mul * (1 + (def_card.number : ℚ) / 10)) * (872/100) := by
    nlinarith [hx, hy]
  have hbase2 : (0:ℚ) ≤ 25 + ((3 : ℚ) - 1) * (872/100) := by norm_num
  constructor
  · simp only [Character.play_card, Character.take_damage]
    rw [pyInt_eq_floor _ (mul_nonneg hbase hratio), mul_div_assoc]
  · simp only [ki_wave, Character.take_damage]
    rw [pyInt_eq_floor _ (mul_nonneg hbase2 hratio), mul_div_assoc]

/-- C3 witness: an equal-power exchange (attacking 7-star against a
defending 1-triangle deals floor(32.3248) = 32 damage, hp 500 to 468), and a
power-1 attacker dealing exactly 0 damage with the defender's hp unchanged
(the displayed-as-special but valid zero outcome). -/
theorem C3_damage_formula_witness :
    ((mkCharacter "a" 1 1000 500 200 [] [] 0 0).play_card ⟨7, .star⟩
        (mkCharacter "b" 1 1000 500 200 [] [] 0 0) ⟨1, .triangle⟩).hp = 468
    ∧ ((mkCharacter "weak" 1 1 500 200 [] [] 0 0).play_card ⟨7, .star⟩
        (mkCharacter "b" 1 1000 500 200 [] [] 0 0) ⟨1, .triangle⟩).hp = 500 := by
  constructor
  · have h := (C3_damage_formula (mkCharacter "a" 1 1000 500 200 [] [] 0 0)
      (mkCharacter "b" 1 1000 500 200 [] [] 0 0) ⟨7, .star⟩ ⟨1, .triangle⟩
      (by decide) (by decide) (by decide) (by decide) (by decide)).1
    rw [h]
    decide
  · have h := (C3_damage_formula (mkCharacter "weak" 1 1 500 200 [] [] 0 0)
      (mkCharacter "b" 1 1000 500 200 [] [] 0 0) ⟨7, .star⟩ ⟨1, .triangle⟩
      (by decide) (by decide) (by decide) (by decide) (by decide)).1
    rw [h]
    decide

/-- C2 (amended): boost activation is rejected with no state change when the
boost is already active; for a human-controlled character it is further
rejected with no state change on unparsable or non-positive input and on
insufficient ki, and on success it deducts cost, saves the pre-activation
power, activates at multiplier m and sets power to
floor(power * (1 + 0.5m)).  For an automated character the configured
multiplier is used with no positivity check: rejection happens only on
insufficient ki, and activation proceeds even for multiplier ≤ 0 (power is
updated by Python's int() truncation). -/
theorem C2_kaioken_activation (c : Character) (input : Option ℤ) :
    (c.kaioken_on = true → kaioken c input = c)
    ∧ (c.is_player = true → c.kaioken_on = false →
        (kaioken c none = c)
        ∧ (∀ m : ℤ, m ≤ 0 → kaioken c (some m) = c)
        ∧ (∀ m : ℤ, 0 < m → c.ki < c.kaioken_cost_unit * m → kaioken c (some m) = c)
        ∧ (∀ m : ℤ, 0 < m → c.kaioken_cost_unit * m ≤ c.ki → 0 ≤ c.power_level →
            (kaioken c (some m)).ki = c.ki - c.kaioken_cost_unit * m
            ∧ (kaioken c (some m)).kaioken_pl0 = c.power_level
            ∧ (kaioken c (some m)).kaioken_on = true
            ∧ (kaioken c (some m)).kaioken_mult = m
            ∧ (kaioken c (some m)).power_level
                = ⌊(c.power_level : ℚ) * (1 + (1/2) * (m : ℚ))⌋))
    ∧ (c.is_player = false → c.kaioken_on = false →
        (c.ki < c.kaioken_cost_unit * c.kaioken_mult_cfg → kaioken c input = c)
        ∧ (c.kaioken_cost_unit * c.kaioken_mult_cfg ≤ c.ki →
            (kaioken c input).ki = c.ki - c.kaioken_cost_unit * c.kaioken_mult_cfg
            ∧ (kaioken c input).kaioken_pl0 = c.power_level
            ∧ (kaioken c input).kaioken_on = true
            ∧ (kaioken c input).kaioken_mult = c.kaioken_mult_cfg
            ∧ (kaioken c input).power_level
                = pyInt ((c.power_level : ℚ) * (1 + (1/2) * (c.kaioken_mult_cfg : ℚ))))) := by
  refine ⟨?_, ?_, ?_⟩
  · intro h
    simp [kaioken, h]
  · intro hp hon
    refine ⟨?_, ?_, ?_, ?_⟩
    · simp [kaioken, hp, hon]
    · intro m hm
      simp [kaioken, hp, hon, hm]
    · intro m hm hki
      simp [kaioken, hp, hon, not_le.mpr hm, hki]
    · intro m hm hki hpl
      have hq : (0:ℚ) ≤ (c.power_level : ℚ) * (1 + 2⁻¹ * (m : ℚ)) := by
        have hm' : (1:ℚ) ≤ (m : ℚ) := by exact_mod_cast hm
        have : (0:ℚ) ≤ (c.power_level : ℚ) := by exact_mod_cast hpl
        nlinarith
      refine ⟨?_, ?_, ?_, ?_, ?_⟩ <;>
        simp [kaioken, hp, hon, not_le.mpr hm, not_lt.mpr hki, pyInt_eq_floor _ hq]
  · intro hp hon
    refine ⟨?_, ?_⟩
    · intro hki
      simp [kaioken, hp, hon, hki]
    · intro hki
      refine ⟨?_, ?_, ?_, ?_, ?_⟩ <;>
        simp [kaioken, hp, hon, not_lt.mpr hki]

/-- C2 witness: a fresh human character activating Kaioken x2 (cost 14 ≤ ki
200, power 1000 ≥ 0) has exactly ki 186 and power floor(1000 * 2) = 2000. -/
theorem C2_kaioken_witness :
    humanChar.is_player = true
    ∧ humanChar.kaioken_on = false
    ∧ humanChar.kaioken_cost_unit * 2 ≤ humanChar.ki
    ∧ (kaioken humanChar (some 2)).ki = humanChar.ki - humanChar.kaioken_cost_unit * 2
    ∧ (kaioken humanChar (some 2)).power_level
        = ⌊(humanChar.power_level : ℚ) * (1 + (1/2) * ((2:ℤ) : ℚ))⌋ := by
  have h := ((C2_kaioken_activation humanChar (some 2)).2.1 (by decide) (by decide)).2.2.2
    2 (by decide) (by decide) (by decide)
  exact ⟨by decide, by decide, by decide, h.1, h.2.2.2.2⟩

/-- C2 counterexample: an automated character whose configured multiplier is
0 (≤ 0) is not rejected — the activation proceeds and the boost becomes
active, contradicting the claimed rejection with no state change for
m ≤ 0. -/
theorem C2_kaioken_counterexample :
    aiKaiokenChar.is_player = false
    ∧ aiKaiokenChar.kaioken_mult_cfg ≤ 0
    ∧ aiKaiokenChar.kaioken_on = false
    ∧ (kaioken aiKaiokenChar none).kaioken_on = true := by
  exact ⟨by decide, by decide, by decide, by decide⟩

theorem check_revert_of_none (c : Character) (h : c.terminated_at = none) :
    check_revert c = c := by
  simp [check_revert, h]

/-- C4 (amended): each auto-revert check pops at most one snapshot (and
exactly one when the threshold is set, breached, and the stack non-empty,
clearing terminated_at), and the check is idempotent: because the popped
snapshot does not restore terminated_at, the check never fires again — in
particular it cannot re-fire at the same ratio, but repeated breaches also
cannot unwind the remaining stacked levels (see the counterexample). -/
theorem C4_auto_revert (c : Character) :
    c.form_stack.length ≤ (check_revert c).form_stack.length + 1
    ∧ check_revert (check_revert c) = check_revert c
    ∧ (∀ thr : ℚ, c.terminated_at = some thr →
        (c.hp : ℚ) / (c.max_hp : ℚ) ≤ thr →
        c.form_stack ≠ [] →
        (check_revert c).form_stack.length + 1 = c.form_stack.length
        ∧ (check_revert c).terminated_at = none) := by
  refine ⟨?_, ?_, ?_⟩
  · cases ht : c.terminated_at with
    | none =>
      rw [check_revert_of_none c ht]
      omega
    | some thr =>
      by_cases hr : (c.hp : ℚ) / (c.max_hp : ℚ) ≤ thr
      · cases hs : c.form_stack with
        | nil =>
          have : (check_revert c).form_stack = [] := by
            simp [check_revert, ht, hr, cancel_kaioken_form_stack, hs]
          rw [this]
          simp
        | cons a l =>
          have : (check_revert c).form_stack = l := by
            simp [check_revert, ht, hr, cancel_kaioken_form_stack, hs]
          rw [this]
          simp
      · have : check_revert c = c := by simp [check_revert, ht, hr]
        rw [this]
        omega
  · cases ht : c.terminated_at with
    | none =>
      rw [check_revert_of_none c ht, check_revert_of_none c ht]
    | some thr =>
      by_cases hr : (c.hp : ℚ) / (c.max_hp : ℚ) ≤ thr
      · cases hs : c.form_stack with
        | nil =>
          have h1 : check_revert c = cancel_kaioken c := by
            simp [check_revert, ht, hr, cancel_kaioken_form_stack, hs]
          have h2 : check_revert (cancel_kaioken c) = cancel_kaioken c := by
            have hcc : cancel_kaioken (cancel_kaioken c) = cancel_kaioken c :=
              cancel_kaioken_of_off _ (cancel_kaioken_on c)
            simp [check_revert, cancel_kaioken_terminated_at, ht, cancel_kaioken_hp,
              cancel_kaioken_max_hp, hr, hcc, cancel_kaioken_form_stack, hs]
          rw [h1, h2]
        | cons a l =>
          have hnone : (check_revert c).terminated_at = none := by
            simp [check_revert, ht, hr, cancel_kaioken_form_stack, hs]
          exact check_revert_of_none _ hnone
      · have h1 : check_revert c = c := by simp [check_revert, ht, hr]
        rw [h1, h1]
  · intro thr ht hr hs
    obtain ⟨a, l, hal⟩ := List.exists_cons_of_ne_nil hs
    constructor
    · have : (check_revert c).form_stack = l := by
        simp [check_revert, ht, hr, cancel_kaioken_form_stack, hal]
      rw [this, hal]
      simp
    · simp [check_revert, ht, hr, cancel_kaioken_form_stack, hal]

/-- C4 witness: on a two-level stack at hp ratio 1/4 ≤ threshold 1/2, one
check pops exactly one snapshot and clears the threshold. -/
theorem C4_auto_revert_witness :
    doubleFormLowHp.terminated_at = some (1/2)
    ∧ (doubleFormLowHp.hp : ℚ) / (doubleFormLowHp.max_hp : ℚ) ≤ 1/2
    ∧ doubleFormLowHp.form_stack.length = 2
    ∧ (check_revert doubleFormLowHp).form_stack.length + 1 = doubleFormLowHp.form_stack.length
    ∧ (check_revert doubleFormLowHp).terminated_at = none := by
  have h := (C4_auto_revert doubleFormLowHp).2.2 (1/2) (by decide) (by decide) (by decide)
  exact ⟨by decide, by decide, by decide, h.1, h.2⟩

/-- C4 counterexample: with two stacked forms and hp still at or below the
former threshold after the first auto-revert (ratio 1/2 ≤ 1/2), the second
check unwinds nothing — the stack stays at one level because terminated_at
was cleared and is not restored from the snapshot, contradicting "repeated
breaches across multiple successive rounds unwind further stacked levels one
at a time". -/
theorem C4_auto_revert_counterexample :
    doubleFormLowHp.form_stack.length = 2
    ∧ doubleFormLowHp.terminated_at = some (1/2)
    ∧ (doubleFormLowHp.hp : ℚ) / (doubleFormLowHp.max_hp : ℚ) ≤ 1/2
    ∧ (check_revert doubleFormLowHp).form_stack.length = 1
    ∧ ((check_revert doubleFormLowHp).hp : ℚ)
        / ((check_revert doubleFormLowHp).max_hp : ℚ) ≤ 1/2
    ∧ check_revert (check_revert doubleFormLowHp) = check_revert doubleFormLowHp
    ∧ (check_revert (check_revert doubleFormLowHp)).form_stack.length = 1 := by
  exact ⟨by decide, by decide, by decide, by decide, by decide, by decide, by decide⟩

theorem battleCleanup_form_stack (c : Character) : (battleCleanup c).form_stack = [] := by
  have hu : (unwindLoop c.form_stack c).form_stack = [] := by
    cases hs : c.form_stack with
    | nil => exact hs
    | cons a l => exact unwindLoop_form_stack_cons a l c
  simp only [battleCleanup]
  split
  · exact hu
  · exact hu

theorem battleCleanup_kaioken_on (c : Character) : (battleCleanup c).kaioken_on = false := by
  simp only [battleCleanup]
  split
  · rfl
  · rename_i h
    simpa using h

theorem battleCleanup_terminated_at (c : Character) :
    (battleCleanup c).terminated_at = none := by
  simp only [battleCleanup]
  split <;> rfl

theorem battleCleanup_max_hp (c : Character) :
    (battleCleanup c).max_hp = baselineMaxHp c := by
  have h := unwindLoop_max_hp c.form_stack c
  simp only [battleCleanup]
  split
  · exact h
  · exact h

theorem battleCleanup_max_ki (c : Character) :
    (battleCleanup c).max_ki = baselineMaxKi c := by
  have h := unwindLoop_max_ki c.form_stack c
  simp only [battleCleanup]
  split
  · exact h
  · exact h

theorem battleCleanup_power_level_of_on (c : Character) (hk : c.kaioken_on = true) :
    (battleCleanup c).power_level = c.kaioken_pl0 := by
  have hku := unwindLoop_kaioken_on c.form_stack c
  have hpl0 := unwindLoop_kaioken_pl0 c.form_stack c
  simp only [battleCleanup]
  split
  · exact hpl0
  · rename_i h
    exact absurd (hku.trans hk) h

theorem battleCleanup_power_level_of_off (c : Character) (hk : c.kaioken_on = false) :
    (battleCleanup c).power_level = baselinePL c := by
  have hku := unwindLoop_kaioken_on c.form_stack c
  have hpl := unwindLoop_power_level c.form_stack c
  simp only [battleCleanup]
  split
  · rename_i h
    have h' : (unwindLoop c.form_stack c).kaioken_on = true := h
    rw [hku, hk] at h'
    cases h'
  · unfold baselinePL
    cases hg : c.form_stack.getLast? with
    | some s =>
      rw [hg] at hpl
      simp only [hg]
      exact hpl
    | none =>
      rw [hg] at hpl
      simp only [hg, hk]
      simpa using hpl

/-- C1 (amended): when `battle`'s loop terminates normally (either side's hp
reaching 0), the post-battle restoration of lines 427-441 leaves both
combatants with an empty form stack, an inactive boost, no revert threshold,
and max_hp/max_ki restored to the baseline recorded at the bottom of the
form stack; power_level is restored to the baseline whenever the boost is
off at battle end or no transformation is stacked, but when a boost is still
active on top of a transformation the power level is left at the boost's
saved pre-activation (transformed) value rather than the baseline (see the
counterexample).  The forfeit return (game.py line 339) bypasses that
restoration entirely: the round ends with the quit flag set and both
combatants exactly in their decision-phase (post-upkeep) states, stacked
forms and active boost included.  `auto_battle` also performs no
restoration at all: its combatants are returned exactly as the loop left
them. -/
theorem C1_post_battle_baseline (c : Character) :
    (battleCleanup c).form_stack = []
    ∧ (battleCleanup c).kaioken_on = false
    ∧ (battleCleanup c).terminated_at = none
    ∧ (battleCleanup c).max_hp = baselineMaxHp c
    ∧ (battleCleanup c).max_ki = baselineMaxKi c
    ∧ (c.kaioken_on = false → (battleCleanup c).power_level = baselinePL c)
    ∧ (c.form_stack = [] → (battleCleanup c).power_level = baselinePL c)
    ∧ (c.kaioken_on = true → (battleCleanup c).power_level = c.kaioken_pl0)
    ∧ autoBattlePost c = c
    ∧ (∀ (inp : RoundIn) (eChoice : EChoice) (cfg : List Transformation)
          (r1 r2 : List Card),
        (battleRound inp PChoice.q eChoice cfg r1 r2).quit = true
        ∧ (battleRound inp PChoice.q eChoice cfg r1 r2).p
            = check_revert (process_kaioken inp.p)
        ∧ (battleRound inp PChoice.q eChoice cfg r1 r2).e
            = check_revert (process_kaioken inp.e)) := by
  refine ⟨battleCleanup_form_stack c, battleCleanup_kaioken_on c,
    battleCleanup_terminated_at c, battleCleanup_max_hp c, battleCleanup_max_ki c,
    ?_, ?_, ?_, rfl, ?_⟩
  · exact fun h => battleCleanup_power_level_of_off c h
  · intro hs
    by_cases hk : c.kaioken_on = true
    · rw [battleCleanup_power_level_of_on c hk]
      simp [baselinePL, hs, hk]
    · have hk' : c.kaioken_on = false := by simpa using hk
      exact battleCleanup_power_level_of_off c hk'
  · exact fun hk => battleCleanup_power_level_of_on c hk
  · intro inp eChoice cfg r1 r2
    refine ⟨?_, ?_, ?_⟩ <;> simp [battleRound]

/-- C1 witness: a boosted but untransformed character is restored to its
baseline (pre-activation) power by the cleanup. -/
theorem C1_post_battle_witness :
    boostedHuman.form_stack = []
    ∧ (battleCleanup boostedHuman).power_level = baselinePL boostedHuman
    ∧ baselinePL boostedHuman = 1000 := by
  refine ⟨by decide, ?_, by decide⟩
  exact (C1_post_battle_baseline boostedHuman).2.2.2.2.2.2.1 (by decide)

/-- C1 counterexample: a combatant ending `battle` with Kaioken active on
top of a transformation (baseline power 1000, transformed 2000, boosted
3000) is left by the cleanup at power 2000, not the baseline 1000 the claim
requires; and on a forfeit `battle` returns (quit flag set) with the
player's form stack still one level deep and the boost still active — the
restoration of lines 427-441 never runs on that path.  (`auto_battle`
performs no restoration on any path.) -/
theorem C1_post_battle_counterexample :
    boostedOnTransformed.kaioken_on = true
    ∧ boostedOnTransformed.form_stack.length = 1
    ∧ humanChar.power_level = 1000
    ∧ baselinePL boostedOnTransformed = 1000
    ∧ (battleCleanup boostedOnTransformed).power_level = 2000
    ∧ (battleCleanup boostedOnTransformed).kaioken_on = false
    ∧ (battleCleanup boostedOnTransformed).form_stack = []
    ∧ (battleRound c1qIn PChoice.q (.card 1) [] [] []).quit = true
    ∧ (battleRound c1qIn PChoice.q (.card 1) [] [] []).p.form_stack.length = 1
    ∧ (battleRound c1qIn PChoice.q (.card 1) [] [] []).p.kaioken_on = true
    ∧ (battleRound c1qIn PChoice.q (.card 1) [] [] []).p.power_level = 3000 := by
  exact ⟨by decide, by decide, by decide, by decide, by decide, by decide, by decide,
    by decide, by decide, by decide, by decide⟩

/-- C5 (amended): when the human side picks an ability it cannot afford, no
ki is deducted and no effect is applied, but the round is NOT rolled back:
it proceeds exactly as a turn in which the player does nothing (identical to
a failed item-menu turn), the round counter advances, and the opponent acts.
Only an empty ability-menu resolution (back/invalid) restarts the decision
phase without consuming the turn. -/
theorem C5_unaffordable_ability (inp : RoundIn) (pick kIn : Option ℤ) (eChoice : EChoice)
    (cfg : List Transformation) (r1 r2 : List Card) (ab : Ability)
    (hpick : pick_ability (check_revert (process_kaioken inp.p)) pick = some ab)
    (hki : (check_revert (process_kaioken inp.p)).ki < ab.ki_cost) :
    battleRound inp (.a pick kIn) eChoice cfg r1 r2
      = battleRound inp (.i none) eChoice cfg r1 r2
    ∧ (battleRound inp (.a pick kIn) eChoice cfg r1 r2).rnd = inp.rnd + 1
    ∧ (battleRound inp (.a pick kIn) eChoice cfg r1 r2).p.ki
        = (check_revert (process_kaioken inp.p)).ki := by
  have hspend : (check_revert (process_kaioken inp.p)).spend_ki ab.ki_cost
      = (false, check_revert (process_kaioken inp.p)) := by
    simp [Character.spend_ki, hki]
  have hpa : ∀ ec : Option Card,
      playerAct (check_revert (process_kaioken inp.p)) (check_revert (process_kaioken inp.e))
        (.a pick kIn) none ec cfg
      = (check_revert (process_kaioken inp.p), check_revert (process_kaioken inp.e)) := by
    intro ec
    simp [playerAct, hpick, hspend]
  have hpi : ∀ ec : Option Card,
      playerAct (check_revert (process_kaioken inp.p)) (check_revert (process_kaioken inp.e))
        (.i none) none ec cfg
      = (check_revert (process_kaioken inp.p), check_revert (process_kaioken inp.e)) := by
    intro ec
    simp [playerAct, use_item_menu_none]
  have hcanc : abilityCancelled (check_revert (process_kaioken inp.p)) (.a pick kIn) = false := by
    simp [abilityCancelled, hpick]
  have hcanci : abilityCancelled (check_revert (process_kaioken inp.p)) (PChoice.i none) = false := rfl
  have hEq : battleRound inp (.a pick kIn) eChoice cfg r1 r2
      = battleRound inp (.i none) eChoice cfg r1 r2 := by
    simp only [battleRound, pChoiceCard]
    simp only [hcanc, hcanci]
    simp only [hpa, hpi]
    simp
  refine ⟨hEq, ?_, ?_⟩
  · rw [hEq]
    simp only [battleRound, pChoiceCard]
    simp only [hcanci]
    simp only [hpi]
    simp only [Bool.false_eq_true, if_false]
    rw [if_neg (show ¬ (PChoice.i (none : Option ℤ) = PChoice.q) by simp)]
    split <;> rfl
  · rw [hEq]
    simp only [battleRound, pChoiceCard]
    simp only [hcanci]
    simp only [hpi]
    simp only [Bool.false_eq_true, if_false]
    rw [if_neg (show ¬ (PChoice.i (none : Option ℤ) = PChoice.q) by simp)]
    split
    · rfl
    · exact enemyAct_p_ki _ _ _ _ _ _

/-- C5 witness: in the concrete low-ki round, the turn with the unaffordable
Onda de Ki (cost 40, ki 10) is consumed — the round counter advances. -/
theorem C5_unaffordable_ability_witness :
    pick_ability (check_revert (process_kaioken c5in.p)) (some 1) = some ondaDeKi
    ∧ (check_revert (process_kaioken c5in.p)).ki < ondaDeKi.ki_cost
    ∧ (battleRound c5in (.a (some 1) none) (.card 1) [] [] []).rnd = c5in.rnd + 1 := by
  refine ⟨by decide, by decide, ?_⟩
  exact (C5_unaffordable_ability c5in (some 1) none (.card 1) [] [] [] ondaDeKi
    (by decide) (by decide)).2.1

/-- C5 counterexample: the human picks Onda de Ki (cost 40) with only 10 ki.
The claim says the turn is aborted, control returns to the decision phase of
the same round, and the opponent does not act.  In fact the round counter
advances (1 to 2) and the opponent's card play lands, dropping the player
from 500 to 464 hp (while, as the claim correctly says, no ki is lost). -/
theorem C5_unaffordable_ability_counterexample :
    pick_ability (check_revert (process_kaioken c5in.p)) (some 1) = some ondaDeKi
    ∧ ondaDeKi.ki_cost = 40
    ∧ (check_revert (process_kaioken c5in.p)).ki = 10
    ∧ c5in.p.hp = 500
    ∧ (battleRound c5in (.a (some 1) none) (.card 1) [] [] []).rnd = 2
    ∧ (battleRound c5in (.a (some 1) none) (.card 1) [] [] []).p.hp = 464
    ∧ (battleRound c5in (.a (some 1) none) (.card 1) [] [] []).p.ki = 10 := by
  exact ⟨by decide, by decide, by decide, by decide, by decide, by decide, by decide⟩

theorem kaioken_form_stack (c : Character) (i : Option ℤ) :
    (kaioken c i).form_stack = c.form_stack := by
  simp only [kaioken]
  repeat' split
  all_goals rfl

theorem kaioken_terminated_at (c : Character) (i : Option ℤ) :
    (kaioken c i).terminated_at = c.terminated_at := by
  simp only [kaioken]
  repeat' split
  all_goals rfl

theorem process_kaioken_form_stack (c : Character) :
    (process_kaioken c).form_stack = c.form_stack := by
  simp only [process_kaioken]
  repeat' split
  all_goals rfl

theorem process_kaioken_terminated_at (c : Character) :
    (process_kaioken c).terminated_at = c.terminated_at := by
  simp only [process_kaioken]
  repeat' split
  all_goals rfl

theorem spend_ki_form_stack (c : Character) (k : ℤ) :
    (c.spend_ki k).2.form_stack = c.form_stack := by
  unfold Character.spend_ki
  split <;> rfl

theorem spend_ki_terminated_at (c : Character) (k : ℤ) :
    (c.spend_ki k).2.terminated_at = c.terminated_at := by
  unfold Character.spend_ki
  split <;> rfl

theorem apply_item_form_stack (c : Character) (it : String) :
    (apply_item c it).form_stack = c.form_stack := by
  unfold apply_item
  repeat' split
  all_goals rfl

theorem apply_item_terminated_at (c : Character) (it : String) :
    (apply_item c it).terminated_at = c.terminated_at := by
  unfold apply_item
  repeat' split
  all_goals rfl

theorem use_item_menu_form_stack (c : Character) (i : Option ℤ) :
    (use_item_menu c i).form_stack = c.form_stack := by
  unfold use_item_menu
  repeat' split
  all_goals try rfl
  all_goals dsimp only
  all_goals split <;> simp [apply_item_form_stack]

theorem use_item_menu_terminated_at (c : Character) (i : Option ℤ) :
    (use_item_menu c i).terminated_at = c.terminated_at := by
  unfold use_item_menu
  repeat' split
  all_goals try rfl
  all_goals dsimp only
  all_goals split <;> simp [apply_item_terminated_at]

theorem gain_exp_form_stack (catalog : String → Ability) (learn : List (String × ℤ))
    (f : ℤ → ℚ) (amount : ℤ) (c : Character) :
    (gain_exp catalog learn f amount c).form_stack = c.form_stack := by
  unfold gain_exp
  rw [gainExpLoop_form_stack]

theorem gain_exp_terminated_at (catalog : String → Ability) (learn : List (String × ℤ))
    (f : ℤ → ℚ) (amount : ℤ) (c : Character) :
    (gain_exp catalog learn f amount c).terminated_at = c.terminated_at := by
  unfold gain_exp
  rw [gainExpLoop_terminated_at]

theorem apply_transformation_form_stack (c : Character) (t : Transformation) :
    (apply_transformation c t).form_stack
      = ⟨(cancel_kaioken c).form_name, (cancel_kaioken c).power_level,
         (cancel_kaioken c).max_hp, (cancel_kaioken c).max_ki,
         (cancel_kaioken c).hp, (cancel_kaioken c).ki⟩ :: (cancel_kaioken c).form_stack := rfl

theorem revert_form_StackInv (c : Character) (h : StackInv c) :
    StackInv (revert_form c) := by
  cases hs : c.form_stack with
  | nil =>
    have he : revert_form c = c := by simp [revert_form, hs]
    rw [he]
    exact h
  | cons a l =>
    left
    simp [revert_form, hs]

theorem check_revert_StackInv (c : Character) (h : StackInv c) :
    StackInv (check_revert c) := by
  cases ht : c.terminated_at with
  | none =>
    rw [check_revert_of_none c ht]
    exact h
  | some thr =>
    have hs : c.form_stack ≠ [] := by
      rcases h with h1 | h1
      · rw [ht] at h1
        exact absurd h1 (by simp)
      · exact h1
    obtain ⟨a, l, hal⟩ := List.exists_cons_of_ne_nil hs
    by_cases hr : (c.hp : ℚ) / (c.max_hp : ℚ) ≤ thr
    · left
      simp [check_revert, ht, hr, cancel_kaioken_form_stack, hal]
    · have he : check_revert c = c := by simp [check_revert, ht, hr]
      rw [he]
      exact h

theorem step_StackInv (o : Op) (c : Character) (h : StackInv c) : StackInv (step o c) := by
  cases o with
  | applyTrans t =>
    right
    show (apply_transformation c t).form_stack ≠ []
    rw [apply_transformation_form_stack]
    exact List.cons_ne_nil _ _
  | revertF => exact revert_form_StackInv c h
  | checkRev => exact check_revert_StackInv c h
  | processK =>
    unfold StackInv at h ⊢
    rw [show (step (.processK) c) = process_kaioken c from rfl,
      process_kaioken_terminated_at, process_kaioken_form_stack]
    exact h
  | cancelK =>
    unfold StackInv at h ⊢
    rw [show (step (.cancelK) c) = cancel_kaioken c from rfl,
      cancel_kaioken_terminated_at, cancel_kaioken_form_stack]
    exact h
  | kaiokenAct i =>
    unfold StackInv at h ⊢
    rw [show (step (.kaiokenAct i) c) = kaioken c i from rfl,
      kaioken_terminated_at, kaioken_form_stack]
    exact h
  | takeDmg d => exact h
  | healAct => exact h
  | spendK k =>
    unfold StackInv at h ⊢
    rw [show (step (.spendK k) c) = (c.spend_ki k).2 from rfl,
      spend_ki_terminated_at, spend_ki_form_stack]
    exact h
  | gainExpAct catalog learn f a =>
    unfold StackInv at h ⊢
    rw [show (step (.gainExpAct catalog learn f a) c) = gain_exp catalog learn f a c from rfl,
      gain_exp_terminated_at, gain_exp_form_stack]
    exact h
  | itemUse i =>
    unfold StackInv at h ⊢
    rw [show (step (.itemUse i) c) = use_item_menu c i from rfl,
      use_item_menu_terminated_at, use_item_menu_form_stack]
    exact h
  | setPlayer b => exact h
  | cleanup => exact Or.inl (battleCleanup_terminated_at c)

theorem run_StackInv (ops : List Op) : ∀ c : Character, StackInv c → StackInv (run ops c) := by
  induction ops with
  | nil => intro c h; exact h
  | cons o ops ih => intro c h; exact ih _ (step_StackInv o c h)

/-- C10: the unguarded pop inside the auto-revert check never executes on an
empty form stack.  Every single-character state mutation of the program
preserves the invariant that a recorded revert threshold implies a non-empty
form stack (apply_transformation pushes the snapshot in the same update that
sets the threshold; both revert paths clear the threshold when they pop), so
over every sequence of operations from a freshly created character the
configuration in which the pop of check_revert would raise IndexError is
unreachable. -/
theorem C10_check_revert_pop_safe (name : String) (level power_level max_hp max_ki : ℤ)
    (abilities : List Ability) (backpack : List String) (cfgm e0 : ℤ) (ops : List Op) :
    checkRevertUnsafe
      (run ops (mkCharacter name level power_level max_hp max_ki abilities backpack cfgm e0))
      = false := by
  have h0 : StackInv (mkCharacter name level power_level max_hp max_ki abilities backpack cfgm e0) :=
    Or.inl rfl
  have h := run_StackInv ops _ h0
  rcases h with h | h
  · simp [checkRevertUnsafe, h]
  · cases hfs : (run ops (mkCharacter name level power_level max_hp max_ki abilities backpack cfgm e0)).form_stack with
    | nil => exact absurd hfs h
    | cons a l => simp [checkRevertUnsafe, hfs]

end CardBattle
